import Mathlib

/-
  Verification development for the gol-rs Game of Life engine.

  Shallow embedding of src/data/cell.rs and src/data/grid.rs:
  * Rust `Vec<T>` becomes `List T`; `usize` becomes `Nat`.
  * The newtype `GridIdx(usize)` is embedded as a plain `Nat` flat index.
  * `Grid::new` takes the random cell initialisation as an explicit function
    `f : Nat → Nat → Status` (the Rust code draws each cell's status from a
    thread-local RNG; every property below holds for an arbitrary `f`).
  * A Rust indexing expression that can panic (out-of-bounds `[]`) is embedded
    either behind the same bounds check the source performs, as an `Option`
    (for `cells()`, whose unguarded `self.cells[i]` read can go out of bounds
    on degenerate grids), or with `List.getD _ defaultCell` where the source
    relies on construction-time guarantees that the index is in range.
  * The rayon data-parallel pass writes disjoint indices of the scratch buffer,
    each computed only from the immutable previous generation, so its result
    is embedded as the per-index map `parPass`; the sequential `for` loop is
    embedded as the index-by-index fold `seqPass`.
-/

set_option linter.unusedVariables false

namespace GolRs

/-- Life status of a cell (src/data/cell.rs, `enum Status { Dead, Alive }`). -/
inductive Status where
  | Dead : Status
  | Alive : Status
deriving DecidableEq

/-- A cell wraps a status (src/data/cell.rs, `struct Cell(pub Status)`). -/
structure Cell where
  status : Status
deriving DecidableEq

/-- Stand-in cell used as the default of `List.getD` where the source indexes
unconditionally; all theorems below only evaluate such reads in range. -/
def defaultCell : Cell := ⟨Status.Dead⟩

/-- The liveness projection `Cell::alive` (`self.0 == Status::Alive`). -/
def Cell.alive (c : Cell) : Bool := decide (c.status = Status.Alive)

/-- `Cell::update` overwrites the wrapped status (`self.0 = status`); embedded
as returning the updated cell. -/
def Cell.update (c : Cell) (status : Status) : Cell := { c with status := status }

/-- `Cell::next_status`: the Life transition rule, matching on
`(&self.0, neighbours_cnt)` with arms `(_, 3)`, `(&Alive, 2)`, wildcard. -/
def Cell.next_status (c : Cell) (neighbours_cnt : Nat) : Status :=
  match c.status, neighbours_cnt with
  | _, 3 => Status.Alive
  | Status.Alive, 2 => Status.Alive
  | _, _ => Status.Dead

/-- Flat index into the grid (src/data/grid.rs, `struct GridIdx(pub usize)`). -/
abbrev GridIdx := Nat

/-- src/data/grid.rs, `pub const PAR_THRESHOLD_AREA: usize = 250_000`. -/
def PAR_THRESHOLD_AREA : Nat := 250000

/-- The free function `neighbour_coords(max_i, max_j, coord)`: the 8 toroidal
neighbour flat indices of `(i, j)`, in the order N, NE, E, SE, S, SW, W, NW.
The `Coord { i, j }` argument is passed as the two components `i j`. -/
def neighbour_coords (max_i max_j i j : Nat) : List GridIdx :=
  let width := max_j + 1
  let to_grid_idx := fun (i j : Nat) => width * i + j
  let i_up := if i = 0 then max_i else i - 1
  let i_down := if i = max_i then 0 else i + 1
  let j_left := if j = 0 then max_j else j - 1
  let j_right := if j = max_j then 0 else j + 1
  [ to_grid_idx i_up j,
    to_grid_idx i_up j_right,
    to_grid_idx i j_right,
    to_grid_idx i_down j_right,
    to_grid_idx i_down j,
    to_grid_idx i_down j_left,
    to_grid_idx i j_left,
    to_grid_idx i_up j_left ]

/-- The free function `neighbours(max_i, max_j, cells)`: one entry of 8
neighbour indices per cell, pushed in row-major iteration order over the
two-dimensional cell matrix. -/
def neighboursOf (max_i max_j : Nat) (cells : List (List Cell)) : List (List GridIdx) :=
  (cells.enum.map
    (fun p => p.2.enum.map (fun q => neighbour_coords max_i max_j p.1 q.1))).flatten

/-- The row-major cell matrix built by the nested loops of `Grid::new`:
`height` rows of `width` cells, the cell at `(i, j)` holding status `f i j`. -/
def grid_rows (width height : Nat) (f : Nat → Nat → Status) : List (List Cell) :=
  (List.range height).map (fun i => (List.range width).map (fun j => Cell.mk (f i j)))

/-- src/data/grid.rs, `struct Grid`: flattened cells, the scratchpad buffer,
the stored maximal row/column indices, the area, and the neighbour cache. -/
@[ext]
structure Grid where
  cells : List Cell
  scratchpad_cells : List Cell
  max_i : Nat
  max_j : Nat
  area : Nat
  neighbours : List (List GridIdx)
deriving DecidableEq

/-- `Grid::new(width, height)`: builds the cell matrix (cell statuses supplied
by `f` in place of the RNG), computes `max_i`/`max_j` with the zero guards of
the source, builds the neighbour cache, flattens the matrix, and clones the
flattened cells into the scratchpad. -/
def Grid.new (width height : Nat) (f : Nat → Nat → Status) : Grid :=
  let grid := grid_rows width height f
  let max_i := if height = 0 then 0 else height - 1
  let max_j := if width = 0 then 0 else width - 1
  let nb := neighboursOf max_i max_j grid
  let cells := grid.flatten
  { cells := cells
    scratchpad_cells := cells
    max_i := max_i
    max_j := max_j
    area := width * height
    neighbours := nb }

/-- `Grid::height()` is `self.max_i + 1`. -/
def Grid.height (g : Grid) : Nat := g.max_i + 1

/-- `Grid::width()` is `self.max_j + 1`. -/
def Grid.width (g : Grid) : Nat := g.max_j + 1

/-- `Grid::get_idx`: bounds-checked lookup into the flattened cells. -/
def Grid.get_idx (g : Grid) (idx : GridIdx) : Option Cell :=
  if h : idx < g.cells.length then some (g.cells.get ⟨idx, h⟩) else none

/-- `Grid::to_grid_idx`: validates `i <= max_i && j <= max_j`, then returns
`self.width() * i + j`. -/
def Grid.to_grid_idx (g : Grid) (i j : Nat) : Option GridIdx :=
  if i ≤ g.max_i ∧ j ≤ g.max_j then some (g.width * i + j) else none

/-- `Grid::cells()`: rebuilds the row-major 2-D view by reading
`self.cells[i]` for a counter `i` that is incremented once per pushed cell,
i.e. position `r * width() + c` for row `r`, column `c`. The source performs
this read without a bounds check and panics when it is out of range; the
embedding returns `none` in that case. -/
def Grid.cellsView (g : Grid) : Option (List (List Cell)) :=
  (List.range g.height).mapM
    (fun r => (List.range g.width).mapM (fun c => g.cells.get? (r * g.width + c)))

/-- The closure `cell_op` of `Grid::advance`: counts the live cells of the
previous generation at the 8 cached neighbour indices of `i`, computes the
next status from the previous generation's cell at `i`, and overwrites the
scratch cell with it. -/
def cell_op (neighbours : List (List GridIdx)) (last_gen : List Cell)
    (i : Nat) (cell : Cell) : Cell :=
  let alives := (neighbours.getD i []).foldl
    (fun acc idx =>
      if (last_gen.getD idx defaultCell).status = Status.Alive then acc + 1 else acc) 0
  let next_status := (last_gen.getD i defaultCell).next_status alives
  cell.update next_status

/-- The value `cell_op` stores at index `i`; it depends only on the previous
generation, never on the scratch cell being overwritten. -/
def next_cell (neighbours : List (List GridIdx)) (last_gen : List Cell) (i : Nat) : Cell :=
  Cell.mk ((last_gen.getD i defaultCell).next_status
    ((neighbours.getD i []).foldl
      (fun acc idx =>
        if (last_gen.getD idx defaultCell).status = Status.Alive then acc + 1 else acc) 0))

/-- The sequential branch of `Grid::advance`: the `for (i, cell) in
cells.iter_mut().enumerate()` loop, applying `cell_op` to each scratch index
in order. Embedded as a left fold that sets one index per step. -/
def seqPass (neighbours : List (List GridIdx)) (last_gen scratch : List Cell) : List Cell :=
  (List.range scratch.length).foldl
    (fun buf i => buf.set i (cell_op neighbours last_gen i (buf.getD i defaultCell))) scratch

/-- The data-parallel branch of `Grid::advance`:
`cells.par_iter_mut().enumerate().for_each(cell_op)`. Every index is written
exactly once, from the immutable previous generation only, so the fan-out is
embedded as the per-index map of `cell_op` over the enumerated scratch. -/
def parPass (neighbours : List (List GridIdx)) (last_gen scratch : List Cell) : List Cell :=
  scratch.enum.map (fun p => cell_op neighbours last_gen p.1 p.2)

/-- `Grid::advance` with the dispatch boolean made explicit: run the chosen
pass into the scratchpad, then `mem::swap` the two buffers. -/
def Grid.advanceWith (g : Grid) (area_requires_par : Bool) : Grid :=
  let newScratch :=
    if area_requires_par then parPass g.neighbours g.cells g.scratchpad_cells
    else seqPass g.neighbours g.cells g.scratchpad_cells
  { g with cells := newScratch, scratchpad_cells := g.cells }

/-- `Grid::advance()`: computes `area_requires_par = area() >= PAR_THRESHOLD_AREA`,
runs the corresponding pass over the scratchpad, and swaps the buffers. -/
def Grid.advance (g : Grid) : Grid :=
  let area_requires_par : Bool := decide (g.area ≥ PAR_THRESHOLD_AREA)
  g.advanceWith area_requires_par

/-! ### Arithmetic and list helpers -/

/-- Row-major flattening `w * r + c` is injective on in-range columns. -/
theorem flat_inj {w r1 c1 r2 c2 : Nat} (h1 : c1 < w) (h2 : c2 < w)
    (h : w * r1 + c1 = w * r2 + c2) : r1 = r2 ∧ c1 = c2 := by
  have hw : 0 < w := Nat.lt_of_le_of_lt (Nat.zero_le c1) h1
  have e1 : (w * r1 + c1) / w = r1 := by
    rw [Nat.mul_add_div hw, Nat.div_eq_of_lt h1, Nat.add_zero]
  have e2 : (w * r2 + c2) / w = r2 := by
    rw [Nat.mul_add_div hw, Nat.div_eq_of_lt h2, Nat.add_zero]
  have hr : r1 = r2 := by rw [← e1, ← e2, h]
  subst hr
  exact ⟨rfl, by omega⟩

/-- The scratch cell passed to `cell_op` is irrelevant: its only field is
overwritten, so the result is `next_cell`. -/
theorem cell_op_eq (nb : List (List GridIdx)) (lg : List Cell) (i : Nat) (c : Cell) :
    cell_op nb lg i c = next_cell nb lg i := by
  cases c
  rfl

/-- Writing `v i` at every index `i < n` preserves the length. -/
theorem foldl_set_length {α : Type} (v : Nat → α) (n : Nat) (s : List α) :
    ((List.range n).foldl (fun buf i => buf.set i (v i)) s).length = s.length := by
  induction n with
  | zero => rfl
  | succ n ih =>
    rw [List.range_succ, List.foldl_append]
    simpa using ih

/-- Lookup after writing `v i` at every index `i < n`. -/
theorem foldl_set_get {α : Type} (v : Nat → α) (n : Nat) (s : List α) (k : Nat) :
    ((List.range n).foldl (fun buf i => buf.set i (v i)) s).get? k =
      if k < n ∧ k < s.length then some (v k) else s.get? k := by
  induction n with
  | zero => simp
  | succ n ih =>
    rw [List.range_succ, List.foldl_append]
    simp only [List.foldl_cons, List.foldl_nil]
    rw [List.get?_set, ih]
    by_cases hnk : n = k
    · subst hnk
      rw [if_pos rfl, if_neg (by omega)]
      by_cases hk : n < s.length
      · rw [if_pos (by omega), List.get?_eq_get hk]
        rfl
      · rw [if_neg (by omega), List.get?_eq_none.mpr (by omega)]
        rfl
    · rw [if_neg hnk]
      by_cases h1 : k < n ∧ k < s.length
      · rw [if_pos h1, if_pos ⟨by omega, h1.2⟩]
      · rw [if_neg h1, if_neg (by omega)]

/-- The sequential pass keeps the buffer length. -/
theorem seqPass_length (nb : List (List GridIdx)) (lg s : List Cell) :
    (seqPass nb lg s).length = s.length := by
  unfold seqPass
  simp only [cell_op_eq]
  rw [foldl_set_length]

/-- Lookup into the sequential pass result. -/
theorem seqPass_get (nb : List (List GridIdx)) (lg s : List Cell) (k : Nat) :
    (seqPass nb lg s).get? k =
      if k < s.length then some (next_cell nb lg k) else none := by
  unfold seqPass
  simp only [cell_op_eq]
  rw [foldl_set_get]
  by_cases hk : k < s.length
  · rw [if_pos ⟨hk, hk⟩, if_pos hk]
  · rw [if_neg (by omega), if_neg hk, List.get?_eq_none.mpr (by omega)]

/-- The data-parallel pass is the per-index map of `next_cell`. -/
theorem parPass_eq_map (nb : List (List GridIdx)) (lg s : List Cell) :
    parPass nb lg s = (List.range s.length).map (next_cell nb lg) := by
  unfold parPass
  rw [show s.enum.map (fun p => cell_op nb lg p.1 p.2) =
        s.enum.map (fun p => next_cell nb lg p.1) from
      List.map_congr_left (fun p _ => cell_op_eq nb lg p.1 p.2)]
  rw [show (fun p : Nat × Cell => next_cell nb lg p.1) =
        (next_cell nb lg) ∘ Prod.fst from rfl]
  rw [← List.map_map, List.enum_map_fst]

/-- Both passes of `Grid::advance` compute the same buffer. -/
theorem parPass_eq_seqPass (nb : List (List GridIdx)) (lg s : List Cell) :
    parPass nb lg s = seqPass nb lg s := by
  apply List.ext_get?
  intro k
  rw [parPass_eq_map, seqPass_get, List.get?_map]
  by_cases hk : k < s.length
  · rw [List.get?_range hk, if_pos hk]
    rfl
  · rw [if_neg hk, List.get?_eq_none.mpr (by simpa using hk)]
    rfl

/-- C2: for every grid state, the sequential pass and the data-parallel
fan-out produce identical resulting grids; `advance()` picks the path solely
by `area() >= PAR_THRESHOLD_AREA`, and the choice never affects the result. -/
theorem C2_par_seq_equiv (g : Grid) :
    g.advanceWith true = g.advanceWith false ∧
    g.advance = g.advanceWith (decide (g.area ≥ PAR_THRESHOLD_AREA)) ∧
    ∀ b : Bool, g.advance = g.advanceWith b := by
  have hps : g.advanceWith true = g.advanceWith false := by
    unfold Grid.advanceWith
    rw [parPass_eq_seqPass]
    simp
  refine ⟨hps, rfl, ?_⟩
  intro b
  have hadv : g.advance = g.advanceWith (decide (g.area ≥ PAR_THRESHOLD_AREA)) := rfl
  cases b
  · cases hd : decide (g.area ≥ PAR_THRESHOLD_AREA)
    · rw [hadv, hd]
    · rw [hadv, hd, hps]
  · cases hd : decide (g.area ≥ PAR_THRESHOLD_AREA)
    · rw [hadv, hd, ← hps]
    · rw [hadv, hd]

/-- The live-neighbour fold of `cell_op` counts exactly the `alive` cells
among the given indices. -/
theorem foldl_count (lg : List Cell) (l : List GridIdx) (acc : Nat) :
    l.foldl (fun acc idx =>
      if (lg.getD idx defaultCell).status = Status.Alive then acc + 1 else acc) acc =
    acc + l.countP (fun idx => (lg.getD idx defaultCell).alive) := by
  induction l generalizing acc with
  | nil => simp
  | cons a t ih =>
    rw [List.foldl_cons, ih, List.countP_cons]
    by_cases h : (lg.getD a defaultCell).status = Status.Alive
    · have hpa : (lg.getD a defaultCell).alive = true := by
        unfold Cell.alive
        rw [decide_eq_true_eq]
        exact h
      rw [if_pos h, hpa, if_pos rfl]
      omega
    · have hpa : (lg.getD a defaultCell).alive = false := by
        unfold Cell.alive
        rw [decide_eq_false_iff_not]
        exact h
      rw [if_neg h, hpa, if_neg (by simp)]
      omega

/-- `next_cell` phrased with `countP` over the cached neighbour indices. -/
theorem next_cell_eq (nb : List (List GridIdx)) (lg : List Cell) (i : Nat) :
    next_cell nb lg i =
      Cell.mk ((lg.getD i defaultCell).next_status
        ((nb.getD i []).countP (fun idx => (lg.getD idx defaultCell).alive))) := by
  unfold next_cell
  rw [foldl_count, Nat.zero_add]

/-- `advance()` runs the (order-irrelevant) pass into the scratchpad and
swaps the buffers, whichever branch the area dispatch takes. -/
theorem advance_eq (g : Grid) :
    g.advance =
      { g with cells := seqPass g.neighbours g.cells g.scratchpad_cells
               scratchpad_cells := g.cells } := by
  show g.advanceWith (decide (g.area ≥ PAR_THRESHOLD_AREA)) = _
  cases hd : decide (g.area ≥ PAR_THRESHOLD_AREA) <;>
    simp [Grid.advanceWith, parPass_eq_seqPass]

/-- C1: after `advance()`, the cell at every flat index `k < area()` equals
`next_status` of the pre-call cell at `k` applied to the count of pre-call
Alive cells at the 8 cached neighbour indices of `k`. The right-hand side is
a function of the pre-call `cells` buffer alone, so no cell's transition
observes another cell's just-computed next state. -/
theorem C1_advance_transition (g : Grid)
    (hs : g.scratchpad_cells.length = g.cells.length)
    (ha : g.area = g.cells.length)
    (k : Nat) (hk : k < g.area) :
    g.advance.cells.get? k =
      some (Cell.mk ((g.cells.getD k defaultCell).next_status
        ((g.neighbours.getD k []).countP
          (fun idx => (g.cells.getD idx defaultCell).alive)))) := by
  rw [advance_eq]
  show (seqPass g.neighbours g.cells g.scratchpad_cells).get? k = _
  rw [seqPass_get, if_pos (by omega), next_cell_eq]

/-- Closed instance of `C1_advance_transition` on a concrete 2×2 grid. -/
theorem C1_witness :
    (Grid.new 2 2 (fun _ _ => Status.Alive)).scratchpad_cells.length =
        (Grid.new 2 2 (fun _ _ => Status.Alive)).cells.length ∧
    (Grid.new 2 2 (fun _ _ => Status.Alive)).area =
        (Grid.new 2 2 (fun _ _ => Status.Alive)).cells.length ∧
    0 < (Grid.new 2 2 (fun _ _ => Status.Alive)).area ∧
    (Grid.new 2 2 (fun _ _ => Status.Alive)).advance.cells.get? 0 =
      some (Cell.mk
        (((Grid.new 2 2 (fun _ _ => Status.Alive)).cells.getD 0 defaultCell).next_status
          (((Grid.new 2 2 (fun _ _ => Status.Alive)).neighbours.getD 0 []).countP
            (fun idx =>
              ((Grid.new 2 2 (fun _ _ => Status.Alive)).cells.getD idx defaultCell).alive)))) :=
  ⟨by decide, by decide, by decide,
    C1_advance_transition _ (by decide) (by decide) 0 (by decide)⟩

/-- C9: `advance()` never changes `width()`, `height()`, or `area()`, leaves
the precomputed neighbour cache unchanged, and preserves the invariant that
the cells buffer and the scratch buffer both have length
`width() * height()`. -/
theorem C9_advance_frame (g : Grid)
    (hc : g.cells.length = g.width * g.height)
    (hs : g.scratchpad_cells.length = g.width * g.height) :
    g.advance.width = g.width ∧ g.advance.height = g.height ∧
    g.advance.area = g.area ∧ g.advance.neighbours = g.neighbours ∧
    g.advance.cells.length = g.advance.width * g.advance.height ∧
    g.advance.scratchpad_cells.length = g.advance.width * g.advance.height := by
  rw [advance_eq]
  refine ⟨rfl, rfl, rfl, rfl, ?_, ?_⟩
  · show (seqPass g.neighbours g.cells g.scratchpad_cells).length = g.width * g.height
    rw [seqPass_length]
    exact hs
  · exact hc

/-- Closed instance of `C9_advance_frame` on a concrete 2×3 grid. -/
theorem C9_witness :
    (Grid.new 2 3 (fun _ _ => Status.Dead)).cells.length =
        (Grid.new 2 3 (fun _ _ => Status.Dead)).width *
          (Grid.new 2 3 (fun _ _ => Status.Dead)).height ∧
    (Grid.new 2 3 (fun _ _ => Status.Dead)).scratchpad_cells.length =
        (Grid.new 2 3 (fun _ _ => Status.Dead)).width *
          (Grid.new 2 3 (fun _ _ => Status.Dead)).height ∧
    ((Grid.new 2 3 (fun _ _ => Status.Dead)).advance.width =
        (Grid.new 2 3 (fun _ _ => Status.Dead)).width ∧
      (Grid.new 2 3 (fun _ _ => Status.Dead)).advance.height =
        (Grid.new 2 3 (fun _ _ => Status.Dead)).height ∧
      (Grid.new 2 3 (fun _ _ => Status.Dead)).advance.area =
        (Grid.new 2 3 (fun _ _ => Status.Dead)).area ∧
      (Grid.new 2 3 (fun _ _ => Status.Dead)).advance.neighbours =
        (Grid.new 2 3 (fun _ _ => Status.Dead)).neighbours ∧
      (Grid.new 2 3 (fun _ _ => Status.Dead)).advance.cells.length =
        (Grid.new 2 3 (fun _ _ => Status.Dead)).advance.width *
          (Grid.new 2 3 (fun _ _ => Status.Dead)).advance.height ∧
      (Grid.new 2 3 (fun _ _ => Status.Dead)).advance.scratchpad_cells.length =
        (Grid.new 2 3 (fun _ _ => Status.Dead)).advance.width *
          (Grid.new 2 3 (fun _ _ => Status.Dead)).advance.height) :=
  ⟨by decide, by decide, C9_advance_frame _ (by decide) (by decide)⟩

/-! ### Projections of `Grid::new` -/

/-- `Grid::new` stores `max_i` with the zero-height guard. -/
theorem new_max_i (w h : Nat) (f : Nat → Nat → Status) :
    (Grid.new w h f).max_i = if h = 0 then 0 else h - 1 := rfl

/-- `Grid::new` stores `max_j` with the zero-width guard. -/
theorem new_max_j (w h : Nat) (f : Nat → Nat → Status) :
    (Grid.new w h f).max_j = if w = 0 then 0 else w - 1 := rfl

/-- `Grid::new` stores `area = width * height`. -/
theorem new_area (w h : Nat) (f : Nat → Nat → Status) :
    (Grid.new w h f).area = w * h := rfl

/-- The cells of `Grid::new` are the flattened row matrix. -/
theorem new_cells (w h : Nat) (f : Nat → Nat → Status) :
    (Grid.new w h f).cells = (grid_rows w h f).flatten := rfl

/-- The scratchpad of `Grid::new` is a clone of the flattened cells. -/
theorem new_scratch (w h : Nat) (f : Nat → Nat → Status) :
    (Grid.new w h f).scratchpad_cells = (grid_rows w h f).flatten := rfl

/-- The neighbour cache of `Grid::new`. -/
theorem new_neighbours (w h : Nat) (f : Nat → Nat → Status) :
    (Grid.new w h f).neighbours =
      neighboursOf (if h = 0 then 0 else h - 1) (if w = 0 then 0 else w - 1)
        (grid_rows w h f) := rfl

/-- A freshly constructed grid holds `w * h` flattened cells. -/
theorem cells_length (w h : Nat) (f : Nat → Nat → Status) :
    (Grid.new w h f).cells.length = w * h := by
  rw [new_cells, List.length_flatten]
  unfold grid_rows
  rw [List.map_map]
  rw [List.map_congr_left
    (fun i _ => show (List.length ∘ fun i => (List.range w).map (fun j => Cell.mk (f i j))) i = w
      by simp)]
  rw [List.map_const', List.length_range, List.sum_replicate, smul_eq_mul, Nat.mul_comm]

/-- C3: for every current status and every live-neighbour count `n ≤ 8`,
`next_status` is Alive when `n = 3`, Alive when the current status is Alive
and `n = 2`, and Dead in every other case. -/
theorem C3_next_status (c : Cell) (n : Nat) (hn : n ≤ 8) :
    c.next_status n =
      if n = 3 then Status.Alive
      else if c.status = Status.Alive ∧ n = 2 then Status.Alive
      else Status.Dead := by
  obtain ⟨s⟩ := c
  cases s <;> interval_cases n <;> decide

/-- Closed instance of `C3_next_status` at a dead cell with 3 neighbours. -/
theorem C3_witness :
    (3 : Nat) ≤ 8 ∧
    (Cell.mk Status.Dead).next_status 3 =
      (if (3 : Nat) = 3 then Status.Alive
       else if (Cell.mk Status.Dead).status = Status.Alive ∧ (3 : Nat) = 2 then Status.Alive
       else Status.Dead) :=
  ⟨by decide, C3_next_status ⟨Status.Dead⟩ 3 (by decide)⟩

/-- C6 as stated is false: a grid constructed with width 0 reports
`width() = 1`, not 0 (the stored `max_j` is clamped to 0 and `width()` is
`max_j + 1`). -/
theorem C6_counterexample :
    (Grid.new 0 5 (fun _ _ => Status.Dead)).width = 1 ∧
    ¬(Grid.new 0 5 (fun _ _ => Status.Dead)).width = 0 := by
  decide

/-- C6 (amended): `Grid::new(w, h)` always stores `area() = w * h`; `width()`
equals `w` and `height()` equals `h` whenever that dimension is positive,
while a zero dimension is reported as 1. -/
theorem C6_new_dims (w h : Nat) (f : Nat → Nat → Status) :
    (Grid.new w h f).area = w * h ∧
    (0 < w → (Grid.new w h f).width = w) ∧
    (0 < h → (Grid.new w h f).height = h) ∧
    (w = 0 → (Grid.new w h f).width = 1) ∧
    (h = 0 → (Grid.new w h f).height = 1) := by
  refine ⟨new_area w h f, ?_, ?_, ?_, ?_⟩
  · intro hw
    unfold Grid.width
    rw [new_max_j, if_neg (by omega)]
    omega
  · intro hh
    unfold Grid.height
    rw [new_max_i, if_neg (by omega)]
    omega
  · intro hw
    unfold Grid.width
    rw [new_max_j, if_pos hw]
  · intro hh
    unfold Grid.height
    rw [new_max_i, if_pos hh]

/-- Closed instance of `C6_new_dims` on a 2×3 grid. -/
theorem C6_witness :
    (Grid.new 2 3 (fun _ _ => Status.Dead)).area = 2 * 3 ∧
    (Grid.new 2 3 (fun _ _ => Status.Dead)).width = 2 ∧
    (Grid.new 2 3 (fun _ _ => Status.Dead)).height = 3 :=
  ⟨(C6_new_dims 2 3 _).1, (C6_new_dims 2 3 _).2.1 (by decide),
    (C6_new_dims 2 3 _).2.2.1 (by decide)⟩

/-- C8: `to_grid_idx` returns `width() * i + j` exactly for in-range
coordinates, the flat index divides and reduces back to `(i, j)`, and any
row ≥ height() or column ≥ width() yields `none`. -/
theorem C8_to_grid_idx (g : Grid) (i j : Nat) :
    (i < g.height ∧ j < g.width →
      g.to_grid_idx i j = some (g.width * i + j) ∧
      (g.width * i + j) / g.width = i ∧
      (g.width * i + j) % g.width = j) ∧
    (g.height ≤ i ∨ g.width ≤ j → g.to_grid_idx i j = none) := by
  constructor
  · rintro ⟨hi, hj⟩
    have hw : 0 < g.width := Nat.succ_pos _
    have hi' : i ≤ g.max_i := by
      unfold Grid.height at hi
      omega
    have hj' : j ≤ g.max_j := by
      unfold Grid.width at hj
      omega
    refine ⟨?_, ?_, ?_⟩
    · unfold Grid.to_grid_idx
      rw [if_pos ⟨hi', hj'⟩]
    · rw [Nat.mul_add_div hw, Nat.div_eq_of_lt hj, Nat.add_zero]
    · rw [Nat.mul_add_mod, Nat.mod_eq_of_lt hj]
  · intro hcase
    unfold Grid.to_grid_idx
    rw [if_neg ?_]
    unfold Grid.height Grid.width at hcase
    omega

/-- Closed instance of `C8_to_grid_idx` on a 4-wide, 3-high grid: coordinate
(1,2) maps to flat index `width * 1 + 2` and (3,3) is rejected. -/
theorem C8_witness :
    (Grid.new 4 3 (fun _ _ => Status.Dead)).to_grid_idx 1 2 =
        some ((Grid.new 4 3 (fun _ _ => Status.Dead)).width * 1 + 2) ∧
    (Grid.new 4 3 (fun _ _ => Status.Dead)).to_grid_idx 3 3 = none :=
  ⟨((C8_to_grid_idx _ 1 2).1 ⟨by decide, by decide⟩).1,
    (C8_to_grid_idx _ 3 3).2 (Or.inl (by decide))⟩

/-- C10: on a grid constructed with a zero dimension, `to_grid_idx` at (0,0)
returns the present flat index 0 even though the grid holds no cells, while
`get_idx` at that index returns `none`: a present `to_grid_idx` result does
not guarantee a present `get_idx` result. -/
theorem C10_empty_grid_idx (w h : Nat) (f : Nat → Nat → Status)
    (hzero : w = 0 ∨ h = 0) :
    (Grid.new w h f).area = 0 ∧
    (Grid.new w h f).cells.length = 0 ∧
    (Grid.new w h f).to_grid_idx 0 0 = some 0 ∧
    (Grid.new w h f).get_idx 0 = none := by
  have hlen : (Grid.new w h f).cells.length = 0 := by
    rw [cells_length]
    rcases hzero with h0 | h0 <;> rw [h0] <;> omega
  refine ⟨?_, hlen, ?_, ?_⟩
  · rw [new_area]
    rcases hzero with h0 | h0 <;> rw [h0] <;> omega
  · unfold Grid.to_grid_idx
    rw [if_pos ⟨Nat.zero_le _, Nat.zero_le _⟩, Nat.mul_zero, Nat.add_zero]
  · unfold Grid.get_idx
    have hn : ¬(0 < (Grid.new w h f).cells.length) := by omega
    rw [dif_neg hn]

/-- Closed instance of `C10_empty_grid_idx` on a 0×0 grid. -/
theorem C10_witness :
    ((0 : Nat) = 0 ∨ (0 : Nat) = 0) ∧
    ((Grid.new 0 0 (fun _ _ => Status.Dead)).area = 0 ∧
      (Grid.new 0 0 (fun _ _ => Status.Dead)).cells.length = 0 ∧
      (Grid.new 0 0 (fun _ _ => Status.Dead)).to_grid_idx 0 0 = some 0 ∧
      (Grid.new 0 0 (fun _ _ => Status.Dead)).get_idx 0 = none) :=
  ⟨Or.inl rfl, C10_empty_grid_idx 0 0 _ (Or.inl rfl)⟩

/-! ### Locating a cell's entry in the neighbour cache -/

/-- Enumerating a list built by mapping over `range n` pairs each position
with the mapped element. -/
theorem enum_map_of_map {α β : Type} (g : Nat → α) (F : Nat × α → β) (n : Nat) :
    ((List.range n).map g).enum.map F = (List.range n).map (fun i => F (i, g i)) := by
  rw [List.enum_eq_zip_range, List.length_map, List.length_range]
  nth_rewrite 1 [← List.map_id (List.range n)]
  rw [List.zip_map', List.map_map]
  rfl

/-- The neighbour cache of a constructed grid is the flattened row-major
table of `neighbour_coords` values. -/
theorem neighboursOf_grid_rows (mi mj w h : Nat) (f : Nat → Nat → Status) :
    neighboursOf mi mj (grid_rows w h f) =
      ((List.range h).map
        (fun i => (List.range w).map (fun j => neighbour_coords mi mj i j))).flatten := by
  unfold neighboursOf grid_rows
  congr 1
  rw [enum_map_of_map]
  apply List.map_congr_left
  intro i _
  rw [enum_map_of_map]

/-- Flat lookup into the flattening of uniform-width rows. -/
theorem flatten_get {α : Type} (w : Nat) :
    ∀ (l : List (List α)) (i j : Nat), (∀ r ∈ l, r.length = w) → j < w →
      l.flatten.get? (w * i + j) = (l.get? i).bind (fun r => r.get? j) := by
  intro l
  induction l with
  | nil =>
    intro i j _ _
    simp
  | cons r t ih =>
    intro i j hrow hj
    have hr : r.length = w := hrow r (List.mem_cons_self r t)
    rw [List.flatten_cons]
    cases i with
    | zero =>
      rw [Nat.mul_zero, Nat.zero_add, List.get?_append (by omega)]
      rfl
    | succ i' =>
      have hstep : w * (i' + 1) = w * i' + w := Nat.mul_succ w i'
      rw [List.get?_append_right (by omega)]
      have harith : w * (i' + 1) + j - r.length = w * i' + j := by omega
      rw [harith, ih i' j (fun r' hr' => hrow r' (List.mem_cons_of_mem _ hr')) hj]
      rfl

/-- The cache entry of cell `(i, j)` in a constructed grid is the
`neighbour_coords` array for `(i, j)`. -/
theorem new_neighbours_get (w h : Nat) (f : Nat → Nat → Status) (i j : Nat)
    (hi : i < h) (hj : j < w) :
    (Grid.new w h f).neighbours.get? (w * i + j) =
      some (neighbour_coords (h - 1) (w - 1) i j) := by
  rw [new_neighbours, if_neg (by omega), if_neg (by omega), neighboursOf_grid_rows]
  rw [flatten_get w _ i j ?hrow hj]
  case hrow =>
    intro r hr
    obtain ⟨a, _, rfl⟩ := List.mem_map.mp hr
    simp
  rw [List.get?_map, List.get?_range hi]
  show ((List.range w).map (fun j => neighbour_coords (h - 1) (w - 1) i j)).get? j = _
  rw [List.get?_map, List.get?_range hj]
  rfl

/-- The wrap guards of `neighbour_coords` compute modular row/column
arithmetic: row `i - 1` wraps to `(i + h - 1) % h`, row `i + 1` to
`(i + 1) % h`, and symmetrically for columns. -/
theorem neighbour_coords_wrap (w h i j : Nat) (hw : 0 < w) (hh : 0 < h)
    (hi : i < h) (hj : j < w) :
    neighbour_coords (h - 1) (w - 1) i j =
      [ w * ((i + h - 1) % h) + j,
        w * ((i + h - 1) % h) + (j + 1) % w,
        w * i + (j + 1) % w,
        w * ((i + 1) % h) + (j + 1) % w,
        w * ((i + 1) % h) + j,
        w * ((i + 1) % h) + (j + w - 1) % w,
        w * i + (j + w - 1) % w,
        w * ((i + h - 1) % h) + (j + w - 1) % w ] := by
  have hW : w - 1 + 1 = w := by omega
  have hup : (if i = 0 then h - 1 else i - 1) = (i + h - 1) % h := by
    by_cases h0 : i = 0
    · rw [if_pos h0, h0, show 0 + h - 1 = h - 1 from by omega,
        Nat.mod_eq_of_lt (by omega)]
    · rw [if_neg h0, show i + h - 1 = (i - 1) + h from by omega, Nat.add_mod_right,
        Nat.mod_eq_of_lt (by omega)]
  have hdown : (if i = h - 1 then 0 else i + 1) = (i + 1) % h := by
    by_cases h0 : i = h - 1
    · rw [if_pos h0, h0, show h - 1 + 1 = h from by omega, Nat.mod_self]
    · rw [if_neg h0, Nat.mod_eq_of_lt (by omega)]
  have hleft : (if j = 0 then w - 1 else j - 1) = (j + w - 1) % w := by
    by_cases h0 : j = 0
    · rw [if_pos h0, h0, show 0 + w - 1 = w - 1 from by omega,
        Nat.mod_eq_of_lt (by omega)]
    · rw [if_neg h0, show j + w - 1 = (j - 1) + w from by omega, Nat.add_mod_right,
        Nat.mod_eq_of_lt (by omega)]
  have hright : (if j = w - 1 then 0 else j + 1) = (j + 1) % w := by
    by_cases h0 : j = w - 1
    · rw [if_pos h0, h0, show w - 1 + 1 = w from by omega, Nat.mod_self]
    · rw [if_neg h0, Nat.mod_eq_of_lt (by omega)]
  simp only [neighbour_coords]
  rw [hW, hup, hdown, hleft, hright]

/-- C4: for every grid with positive dimensions, the cache entry of cell
`(i, j)` lists the flat indices of its toroidally wrapped neighbours in the
order N, NE, E, SE, S, SW, W, NW — row `i - 1` aliased to `(i + h - 1) % h`
(so row −1 wraps to `h - 1`), row `i + 1` to `(i + 1) % h` (so row `h` wraps
to 0), and symmetrically for columns; in particular on a 3×3 grid the corner
(0,0) entry is exactly the flat indices of
(2,0),(2,1),(0,1),(1,1),(1,0),(1,2),(0,2),(2,2), i.e. [6,7,1,4,3,5,2,8]. -/
theorem C4_neighbour_entries (w h : Nat) (f : Nat → Nat → Status) (i j : Nat)
    (hw : 0 < w) (hh : 0 < h) (hi : i < h) (hj : j < w) :
    (Grid.new w h f).neighbours.get? (w * i + j) =
      some
        [ w * ((i + h - 1) % h) + j,
          w * ((i + h - 1) % h) + (j + 1) % w,
          w * i + (j + 1) % w,
          w * ((i + 1) % h) + (j + 1) % w,
          w * ((i + 1) % h) + j,
          w * ((i + 1) % h) + (j + w - 1) % w,
          w * i + (j + w - 1) % w,
          w * ((i + h - 1) % h) + (j + w - 1) % w ] ∧
    (Grid.new 3 3 f).neighbours.get? 0 = some [6, 7, 1, 4, 3, 5, 2, 8] := by
  constructor
  · rw [new_neighbours_get w h f i j hi hj,
      neighbour_coords_wrap w h i j hw hh hi hj]
  · have h33 := new_neighbours_get 3 3 f 0 0 (by omega) (by omega)
    rw [show (3 : Nat) * 0 + 0 = 0 from by omega] at h33
    rw [h33]
    rfl

/-- Closed instance of `C4_neighbour_entries` at the corner of a 3×3 grid. -/
theorem C4_witness :
    (0 : Nat) < 3 ∧
    ((Grid.new 3 3 (fun _ _ => Status.Dead)).neighbours.get? (3 * 0 + 0) =
        some
          [ 3 * ((0 + 3 - 1) % 3) + 0,
            3 * ((0 + 3 - 1) % 3) + (0 + 1) % 3,
            3 * 0 + (0 + 1) % 3,
            3 * ((0 + 1) % 3) + (0 + 1) % 3,
            3 * ((0 + 1) % 3) + 0,
            3 * ((0 + 1) % 3) + (0 + 3 - 1) % 3,
            3 * 0 + (0 + 3 - 1) % 3,
            3 * ((0 + 3 - 1) % 3) + (0 + 3 - 1) % 3 ] ∧
      (Grid.new 3 3 (fun _ _ => Status.Dead)).neighbours.get? 0 =
        some [6, 7, 1, 4, 3, 5, 2, 8]) :=
  ⟨by decide,
    C4_neighbour_entries 3 3 (fun _ _ => Status.Dead) 0 0
      (by decide) (by decide) (by decide) (by decide)⟩

/-- Eight row-major flat indices over three pairwise distinct rows and three
pairwise distinct in-range columns, in the N, NE, E, SE, S, SW, W, NW
pattern, are pairwise distinct. -/
theorem nodup_flat8 {w ru r rd cl c cr : Nat}
    (hc1 : cl < w) (hc2 : c < w) (hc3 : cr < w)
    (hr12 : ru ≠ r) (hr23 : r ≠ rd) (hr13 : ru ≠ rd)
    (hl12 : cl ≠ c) (hl23 : c ≠ cr) (hl13 : cl ≠ cr) :
    List.Nodup
      [ w * ru + c, w * ru + cr, w * r + cr, w * rd + cr,
        w * rd + c, w * rd + cl, w * r + cl, w * ru + cl ] := by
  simp only [List.nodup_cons, List.mem_cons, List.not_mem_nil, or_false,
    List.nodup_nil, and_true, not_or, not_false_eq_true]
  refine ⟨⟨?_, ?_, ?_, ?_, ?_, ?_, ?_⟩, ⟨?_, ?_, ?_, ?_, ?_, ?_⟩,
    ⟨?_, ?_, ?_, ?_, ?_⟩, ⟨?_, ?_, ?_, ?_⟩, ⟨?_, ?_, ?_⟩, ⟨?_, ?_⟩, ?_⟩ <;>
  · intro hEq
    rcases flat_inj (by assumption) (by assumption) hEq with ⟨e1, e2⟩
    omega

/-- C5 as stated is false: on the 2×2 grid, toroidal wrapping makes
neighbours coincide, and the corner (0,0) cache entry [2,3,1,3,2,3,1,3]
contains duplicates. -/
theorem C5_counterexample :
    (Grid.new 2 2 (fun _ _ => Status.Dead)).neighbours.get? 0 =
        some [2, 3, 1, 3, 2, 3, 1, 3] ∧
    ¬([2, 3, 1, 3, 2, 3, 1, 3] : List GridIdx).Nodup := by
  decide

/-- C5 (amended): every cache entry of a constructed grid holds exactly 8
neighbour indices, and when both dimensions are at least 3 the 8 indices are
pairwise distinct; on grids with a dimension below 3, wrapped neighbours
coincide and distinctness fails. -/
theorem C5_entry_nodup (w h : Nat) (f : Nat → Nat → Status) (k : Nat)
    (hw : 3 ≤ w) (hh : 3 ≤ h) (hk : k < w * h) :
    ∃ l, (Grid.new w h f).neighbours.get? k = some l ∧ l.length = 8 ∧ l.Nodup := by
  have hw0 : 0 < w := by omega
  obtain ⟨i, j, hi, hj, rfl⟩ : ∃ i j, i < h ∧ j < w ∧ w * i + j = k :=
    ⟨k / w, k % w, Nat.div_lt_of_lt_mul hk, Nat.mod_lt _ hw0, Nat.div_add_mod k w⟩
  rw [new_neighbours_get w h f i j hi hj]
  refine ⟨_, rfl, rfl, ?_⟩
  simp only [neighbour_coords]
  rw [show w - 1 + 1 = w from by omega]
  apply nodup_flat8 <;> first
  | omega
  | (split_ifs <;> omega)

/-- Closed instance of `C5_entry_nodup` on a 3×3 grid at flat index 0. -/
theorem C5_witness :
    (3 : Nat) ≤ 3 ∧ (0 : Nat) < 3 * 3 ∧
    ∃ l, (Grid.new 3 3 (fun _ _ => Status.Dead)).neighbours.get? 0 = some l ∧
      l.length = 8 ∧ l.Nodup :=
  ⟨by decide, by decide,
    C5_entry_nodup 3 3 (fun _ _ => Status.Dead) 0 (by decide) (by decide) (by decide)⟩

/-- An `Option`-valued `mapM` fails as soon as its first element fails. -/
theorem mapM_cons_none {α β : Type} (f : α → Option β) (a : α) (l : List α)
    (h : f a = none) : (a :: l).mapM f = none := by
  rw [List.mapM_cons, h]
  rfl

/-- `advance()` on a grid whose buffers are empty changes nothing. -/
theorem advance_empty (g : Grid) (hc : g.cells = []) (hs : g.scratchpad_cells = []) :
    g.advance = g := by
  have h1 : seqPass g.neighbours g.cells g.scratchpad_cells = [] := by
    rw [hs]
    rfl
  rw [advance_eq, h1]
  apply Grid.ext <;> simp [hc, hs]

/-- `cells()` fails on any grid whose flattened buffer is empty: the view
loop still runs `height() ≥ 1` rows of `width() ≥ 1` columns and its first
read of `cells[0]` is out of range. -/
theorem cellsView_empty (g : Grid) (hc : g.cells = []) :
    g.cellsView = none := by
  unfold Grid.cellsView Grid.height
  rw [List.range_succ_eq_map]
  apply mapM_cons_none
  show (List.range g.width).mapM (fun c => g.cells.get? (0 * g.width + c)) = none
  unfold Grid.width
  rw [List.range_succ_eq_map]
  apply mapM_cons_none
  rw [hc]
  rfl

/-- C7 as stated is false at the 0×0 grid: `area()` is 0 and `advance()` is
a no-op, but `cells()` does not return an empty view — its first unchecked
read of `cells[0]` is out of bounds (a panic in the source). -/
theorem C7_counterexample :
    (Grid.new 0 0 (fun _ _ => Status.Dead)).cellsView = none ∧
    (Grid.new 0 0 (fun _ _ => Status.Dead)).cellsView ≠ some [] := by
  decide

/-- C7 (amended): constructing with zero width or height succeeds and yields
a grid with `area() = 0` on which `advance()` is a no-op; but `cells()` on
such a grid fails (out-of-bounds read, embedded as `none`) instead of
returning an empty view, because the zero dimension is reported as
width()/height() = 1. -/
theorem C7_empty_grid (w h : Nat) (f : Nat → Nat → Status)
    (hzero : w = 0 ∨ h = 0) :
    (Grid.new w h f).area = 0 ∧
    (Grid.new w h f).advance = Grid.new w h f ∧
    (Grid.new w h f).cellsView = none := by
  have hc : (Grid.new w h f).cells = [] := by
    apply List.eq_nil_of_length_eq_zero
    rw [cells_length]
    rcases hzero with h0 | h0 <;> rw [h0] <;> omega
  have hs : (Grid.new w h f).scratchpad_cells = [] := by
    rw [new_scratch, ← new_cells]
    exact hc
  refine ⟨?_, advance_empty _ hc hs, cellsView_empty _ hc⟩
  rw [new_area]
  rcases hzero with h0 | h0 <;> rw [h0] <;> omega

/-- Closed instance of `C7_empty_grid` on the 0×0 grid. -/
theorem C7_witness :
    ((0 : Nat) = 0 ∨ (0 : Nat) = 0) ∧
    ((Grid.new 0 0 (fun _ _ => Status.Dead)).area = 0 ∧
      (Grid.new 0 0 (fun _ _ => Status.Dead)).advance =
        Grid.new 0 0 (fun _ _ => Status.Dead) ∧
      (Grid.new 0 0 (fun _ _ => Status.Dead)).cellsView = none) :=
  ⟨Or.inl rfl, C7_empty_grid 0 0 _ (Or.inl rfl)⟩

end GolRs
